import Mathlib

/-!
Shallow embedding of the GLIGEN text-image pipeline
(src/diffusers/pipelines/stable_diffusion/pipeline_stable_diffusion_gligen_text_image.py),
together with theorems settling the specification claims about it.

Tensors are modelled elementwise over the rationals: a batch of noise
predictions is a flat list of rational entries along the batch axis, an
inpaint mask is a function from (row, column) pixel coordinates to a
rational value, and reductions of the denoising loop keep the exact
per-step control flow while collapsing every spatial tensor to one cell.
-/

namespace Gligen

/-- Python builtin int() applied to a rational: truncation toward zero.
Source: the int(...) coercions at lines 519 and 861. -/
def pyInt (q : ℚ) : ℤ := if 0 ≤ q then ⌊q⌋ else -⌊-q⌋

/-- torch.Tensor.chunk(2) along the batch axis (dim 0), modelled on a flat
list of batch entries: the first chunk holds the first ceil(n/2) entries,
the second chunk the rest.  In the pipeline the chunked batch is always
torch.cat([latents] * 2), hence of even length, where this is an exact
halving.  Source: lines 909-910. -/
def chunk2 (xs : List ℚ) : List ℚ × List ℚ :=
  (xs.take ((xs.length + 1) / 2), xs.drop ((xs.length + 1) / 2))

/-- Guidance flag: classifier-free guidance is enabled exactly when
guidance_scale > 1.  Source: line 766. -/
def do_classifier_free_guidance (guidance_scale : ℚ) : Bool :=
  guidance_scale > 1

/-- The per-step guidance combiner, lines 907-913 of __call__:
with classifier-free guidance enabled, the second chunk (conditional half)
of the grounded pass and the first chunk (unconditional half) of the
ungrounded pass are combined elementwise as
noise_pred_uncond + guidance_scale * (noise_pred_text - noise_pred_uncond);
otherwise the grounded pass is returned whole. -/
def guidance_combine (guidance_scale : ℚ)
    (noise_pred_with_grounding noise_pred_without_grounding : List ℚ) : List ℚ :=
  if guidance_scale > 1 then
    let noise_pred_text := (chunk2 noise_pred_with_grounding).2
    let noise_pred_uncond := (chunk2 noise_pred_without_grounding).1
    List.zipWith (fun u c => u + guidance_scale * (c - u)) noise_pred_uncond noise_pred_text
  else
    noise_pred_with_grounding

/-- C1: with classifier-free guidance enabled (guidance_scale > 1) the
combined noise estimate is formed from the conditional (second) half of the
grounded pass A and the unconditional (first) half of the ungrounded pass B,
elementwise equal to noise_uncond + guidance_scale * (noise_cond - noise_uncond);
the unconditional half of pass A and the conditional half of pass B are never
used: any passes agreeing on those two selected halves yield the same result. -/
theorem C1_cross_pass_guidance (gs : ℚ)
    (noise_pred_with_grounding noise_pred_without_grounding : List ℚ)
    (h : 1 < gs) :
    guidance_combine gs noise_pred_with_grounding noise_pred_without_grounding =
      List.zipWith (fun u c => u + gs * (c - u))
        (chunk2 noise_pred_without_grounding).1
        (chunk2 noise_pred_with_grounding).2
    ∧ ∀ passA passB : List ℚ,
        (chunk2 passA).2 = (chunk2 noise_pred_with_grounding).2 →
        (chunk2 passB).1 = (chunk2 noise_pred_without_grounding).1 →
        guidance_combine gs passA passB =
          guidance_combine gs noise_pred_with_grounding noise_pred_without_grounding := by
  constructor
  · simp [guidance_combine, h]
  · intro passA passB hA hB
    simp [guidance_combine, h, hA, hB]

/-- Witness for C1 at guidance_scale = 2 with concrete two-entry batches. -/
theorem C1_cross_pass_guidance_witness :
    guidance_combine 2 [1, 2] [3, 4] = [1] := by
  have h := C1_cross_pass_guidance 2 [1, 2] [3, 4] (by norm_num)
  rw [h.1]
  norm_num [chunk2]

/-- C8: when guidance_scale = 1, classifier-free guidance is disabled
(it requires guidance_scale > 1), and the combined noise estimate is the
grounded pass returned whole, with no chunking along the batch axis and
no contribution from the ungrounded pass (which may be replaced
arbitrarily without changing the result). -/
theorem C8_no_guidance_returns_grounded_pass
    (noise_pred_with_grounding noise_pred_without_grounding other : List ℚ) :
    do_classifier_free_guidance 1 = false
    ∧ guidance_combine 1 noise_pred_with_grounding noise_pred_without_grounding =
        noise_pred_with_grounding
    ∧ guidance_combine 1 noise_pred_with_grounding noise_pred_without_grounding =
        guidance_combine 1 noise_pred_with_grounding other := by
  refine ⟨rfl, ?_, ?_⟩ <;> simp [guidance_combine]

/-- A GLIGEN bounding box [xmin, ymin, xmax, ymax] with coordinates
intended to lie in [0,1].  Source: the gligen_boxes entries. -/
structure GBox where
  x0 : ℚ
  y0 : ℚ
  x1 : ℚ
  y1 : ℚ

/-- One iteration of the loop body of draw_inpaint_mask_from_boxes
(lines 516-519): x0, x1 = box[0]*size[0], box[2]*size[0];
y0, y1 = box[1]*size[1], box[3]*size[1];
inpaint_mask[int(y0):int(y1), int(x0):int(x1)] = 0.
The mask is a function from (row, column) to a value; the slice assignment
zeroes rows int(y0) <= r < int(y1) and columns int(x0) <= c < int(x1).
Note the code scales the x coordinates by size[0] (the row count) and the
y coordinates by size[1] (the column count). -/
def zeroBoxStep (size0 size1 : ℕ) (inpaint_mask : ℕ → ℕ → ℚ) (box : GBox) : ℕ → ℕ → ℚ :=
  fun r c =>
    if pyInt (box.y0 * size1) ≤ (r : ℤ) ∧ (r : ℤ) < pyInt (box.y1 * size1)
        ∧ pyInt (box.x0 * size0) ≤ (c : ℤ) ∧ (c : ℤ) < pyInt (box.x1 * size0) then 0
    else inpaint_mask r c

/-- draw_inpaint_mask_from_boxes (lines 514-520): start from an all-ones
mask of shape (size[0], size[1]) and zero the slice of each box in turn.
The mask is modelled as a total function on (row, column); the pipeline
reads it only at coordinates below (size0, size1). -/
def draw_inpaint_mask_from_boxes (boxes : List GBox) (size0 size1 : ℕ) : ℕ → ℕ → ℚ :=
  boxes.foldl (zeroBoxStep size0 size1) (fun _ _ => 1)

/-- Membership of pixel (row r, column c) in the region the code actually
zeroes for a box: rows scaled from the y coordinates by size1 (the column
count) and columns scaled from the x coordinates by size0 (the row count). -/
def inCodeBoxRegion (box : GBox) (size0 size1 : ℕ) (r c : ℕ) : Prop :=
  pyInt (box.y0 * size1) ≤ (r : ℤ) ∧ (r : ℤ) < pyInt (box.y1 * size1)
    ∧ pyInt (box.x0 * size0) ≤ (c : ℤ) ∧ (c : ℤ) < pyInt (box.x1 * size0)

instance (b : GBox) (size0 size1 r c : ℕ) : Decidable (inCodeBoxRegion b size0 size1 r c) := by
  unfold inCodeBoxRegion
  exact inferInstance

theorem zeroBoxStep_eq (size0 size1 : ℕ) (m : ℕ → ℕ → ℚ) (b : GBox) (r c : ℕ) :
    zeroBoxStep size0 size1 m b r c =
      if inCodeBoxRegion b size0 size1 r c then 0 else m r c := rfl

theorem mask_foldl_char (size0 size1 : ℕ) (boxes : List GBox)
    (acc : ℕ → ℕ → ℚ) (r c : ℕ) :
    boxes.foldl (zeroBoxStep size0 size1) acc r c =
      (if (∃ b ∈ boxes, inCodeBoxRegion b size0 size1 r c) then 0 else acc r c) := by
  induction boxes generalizing acc with
  | nil => simp
  | cons b bs ih =>
    rw [List.foldl_cons, ih]
    by_cases hb : inCodeBoxRegion b size0 size1 r c
    · by_cases hbs : ∃ x ∈ bs, inCodeBoxRegion x size0 size1 r c
      · simp [hb, hbs]
      · simp [hbs, zeroBoxStep_eq, hb]
    · by_cases hbs : ∃ x ∈ bs, inCodeBoxRegion x size0 size1 r c
      · simp [hb, hbs]
      · have : ¬ ∃ x ∈ b :: bs, inCodeBoxRegion x size0 size1 r c := by
          simp only [List.mem_cons]
          rintro ⟨x, hx | hx, hreg⟩
          · exact hb (hx ▸ hreg)
          · exact hbs ⟨x, hx, hreg⟩
        simp [hbs, this, zeroBoxStep_eq, hb]

/-- C2 counterexample: on the non-square 1 x 2 latent grid with the single
box [0, 0, 1/2, 1], the claim's region (columns [int(x0*W), int(x1*W)),
rows [int(y0*H), int(y1*H)) with W = 2 columns, H = 1 row) contains the
pixel (0, 0), yet the computed mask is 1 there, not 0: the code scales the
x coordinates by the row count and the y coordinates by the column count. -/
theorem C2_mask_claim_counterexample :
    draw_inpaint_mask_from_boxes [⟨0, 0, 1/2, 1⟩] 1 2 0 0 = 1
    ∧ pyInt ((0 : ℚ) * 2) ≤ (0 : ℤ) ∧ (0 : ℤ) < pyInt ((1/2 : ℚ) * 2)
    ∧ pyInt ((0 : ℚ) * 1) ≤ (0 : ℤ) ∧ (0 : ℤ) < pyInt ((1 : ℚ) * 1) := by
  refine ⟨?_, by norm_num [pyInt], by norm_num [pyInt], by norm_num [pyInt], by norm_num [pyInt]⟩
  have h := mask_foldl_char 1 2 [⟨0, 0, 1/2, 1⟩] (fun _ _ => 1) 0 0
  rw [draw_inpaint_mask_from_boxes, h, if_neg]
  rintro ⟨b, hb, hreg⟩
  simp only [List.mem_singleton] at hb
  subst hb
  have h4 := hreg.2.2.2
  norm_num [pyInt] at h4

/-- C2 amended: the mask is 0 exactly on the union over the boxes of the
regions the code zeroes — rows [int(y0 * size1], int(y1 * size1)) and
columns [int(x0 * size0), int(x1 * size0)), i.e. with the x coordinates
scaled by the row count size0 and the y coordinates scaled by the column
count size1 (swapped relative to the claim; the two agree on square
grids) — and 1 everywhere else; in particular on a square H x H grid the
single box [0, 0, 1/2, 1/2] zeroes exactly the top-left quadrant
rows, columns < int(H/2), and repeated zeroing by overlapping boxes is
idempotent since the value is determined by region membership alone. -/
theorem C2_mask_characterization (boxes : List GBox) (size0 size1 : ℕ) (r c : ℕ) :
    (draw_inpaint_mask_from_boxes boxes size0 size1 r c = 0
      ↔ ∃ b ∈ boxes, inCodeBoxRegion b size0 size1 r c)
    ∧ (draw_inpaint_mask_from_boxes boxes size0 size1 r c = 0
      ∨ draw_inpaint_mask_from_boxes boxes size0 size1 r c = 1)
    ∧ ∀ H : ℕ, (draw_inpaint_mask_from_boxes [⟨0, 0, 1/2, 1/2⟩] H H r c = 0
      ↔ ((r : ℤ) < pyInt ((1/2 : ℚ) * H) ∧ (c : ℤ) < pyInt ((1/2 : ℚ) * H))) := by
  have key : ∀ bs s0 s1, draw_inpaint_mask_from_boxes bs s0 s1 r c =
      (if (∃ b ∈ bs, inCodeBoxRegion b s0 s1 r c) then 0 else 1) := by
    intro bs s0 s1
    exact mask_foldl_char s0 s1 bs (fun _ _ => 1) r c
  refine ⟨?_, ?_, ?_⟩
  · rw [key]
    by_cases h : ∃ b ∈ boxes, inCodeBoxRegion b size0 size1 r c
    · simp [h]
    · simp [h]
  · rw [key]
    by_cases h : ∃ b ∈ boxes, inCodeBoxRegion b size0 size1 r c
    · simp [h]
    · simp [h]
  · intro H
    rw [key]
    have hzero : pyInt ((0 : ℚ) * H) = 0 := by simp [pyInt]
    constructor
    · intro h
      by_cases hreg : ∃ b ∈ [(⟨0, 0, 1/2, 1/2⟩ : GBox)], inCodeBoxRegion b H H r c
      · rcases hreg with ⟨b, hb, hr⟩
        simp only [List.mem_singleton] at hb
        subst hb
        exact ⟨hr.2.1, hr.2.2.2⟩
      · rw [if_neg hreg] at h
        exact absurd h one_ne_zero
    · rintro ⟨h1, h2⟩
      rw [if_pos]
      refine ⟨⟨0, 0, 1/2, 1/2⟩, List.mem_singleton_self _, ?_, h1, ?_, h2⟩
      · show pyInt ((0 : ℚ) * H) ≤ (r : ℤ)
        rw [hzero]
        exact Int.natCast_nonneg r
      · show pyInt ((0 : ℚ) * H) ≤ (c : ℤ)
        rw [hzero]
        exact Int.natCast_nonneg c

/-- Fixed grounding capacity, line 797: max_objs = 30. -/
def max_objs : ℕ := 30

/-- Observable outcome of the truncation block, lines 797-805:
the resulting three collections, the number of warnings emitted, and
whether a TypeError was raised (slicing a None list raises). -/
structure GligenTruncOut (α β γ : Type) where
  boxes : List α
  phrases : Option (List β)
  images : Option (List γ)
  warnings : ℕ
  raisesTypeError : Bool
  deriving DecidableEq

/-- Lines 797-805 of __call__: if len(gligen_boxes) > max_objs, a warning
is emitted and then gligen_phrases, gligen_boxes, gligen_images are sliced
to their first max_objs entries, in that order.  gligen_phrases and
gligen_images default to None (line 637-638) and are only replaced by
lists later, inside prepare_cross_attention_kwags (lines 571-572), so at
this point each is an optional list; slicing None raises TypeError (after
the warning, and for the phrases slice before the boxes are truncated). -/
def gligen_truncate {α β γ : Type} (gligen_boxes : List α)
    (gligen_phrases : Option (List β)) (gligen_images : Option (List γ)) :
    GligenTruncOut α β γ :=
  if gligen_boxes.length > max_objs then
    match gligen_phrases with
    | none => ⟨gligen_boxes, none, gligen_images, 1, true⟩
    | some phrases =>
      match gligen_images with
      | none => ⟨gligen_boxes.take max_objs, some (phrases.take max_objs), none, 1, true⟩
      | some images =>
        ⟨gligen_boxes.take max_objs, some (phrases.take max_objs),
          some (images.take max_objs), 1, false⟩
  else ⟨gligen_boxes, gligen_phrases, gligen_images, 0, false⟩

/-- C3 counterexample: with 31 boxes, 31 images, and gligen_phrases left as
None — the module's own usage example (line 67 and 74) passes
gligen_phrases = None — the truncation path raises a TypeError
(None[:max_objs] is not subscriptable), so it is not exception-free. -/
theorem C3_truncation_claim_counterexample :
    (List.replicate 31 (0 : ℕ)).length > max_objs
    ∧ (gligen_truncate (List.replicate 31 (0 : ℕ)) (none : Option (List ℕ))
        (some (List.replicate 31 (0 : ℕ)))).raisesTypeError = true := by
  constructor
  · decide
  · rfl

/-- C3 amended: when gligen_phrases and gligen_images are both supplied as
lists and len(boxes) > max_objs, the truncation block truncates boxes,
phrases and images to their first max_objs entries, emits the truncation
warning exactly once, and raises no exception (the block is non-fatal); but
when either gligen_phrases or gligen_images is None — which the pipeline
permits and its own usage example exercises — the same block raises a
TypeError instead. -/
theorem C3_truncation_amended {α β γ : Type} (boxes : List α)
    (phrases : List β) (images : List γ) (h : boxes.length > max_objs) :
    gligen_truncate boxes (some phrases) (some images) =
      ⟨boxes.take max_objs, some (phrases.take max_objs),
        some (images.take max_objs), 1, false⟩
    ∧ (gligen_truncate boxes (some phrases) (some images)).boxes.length = max_objs
    ∧ (gligen_truncate boxes (some phrases) (some images)).warnings = 1
    ∧ (gligen_truncate boxes (some phrases) (some images)).raisesTypeError = false := by
  have heq : gligen_truncate boxes (some phrases) (some images) =
      ⟨boxes.take max_objs, some (phrases.take max_objs),
        some (images.take max_objs), 1, false⟩ := by
    unfold gligen_truncate
    rw [if_pos h]
  refine ⟨heq, ?_, ?_, ?_⟩ <;> rw [heq]
  exact List.length_take_of_le (le_of_lt h)

/-- Witness for C3 amended at 31 concrete entries of each kind. -/
theorem C3_truncation_amended_witness :
    (gligen_truncate (List.replicate 31 (0 : ℕ)) (some (List.replicate 31 (1 : ℕ)))
      (some (List.replicate 31 (2 : ℕ)))).warnings = 1
    ∧ (gligen_truncate (List.replicate 31 (0 : ℕ)) (some (List.replicate 31 (1 : ℕ)))
      (some (List.replicate 31 (2 : ℕ)))).boxes.length = max_objs
    ∧ (gligen_truncate (List.replicate 31 (0 : ℕ)) (some (List.replicate 31 (1 : ℕ)))
      (some (List.replicate 31 (2 : ℕ)))).raisesTypeError = false := by
  have h := C3_truncation_amended (List.replicate 31 (0 : ℕ))
    (List.replicate 31 (1 : ℕ)) (List.replicate 31 (2 : ℕ)) (by decide)
  exact ⟨h.2.2.1, h.2.1, h.2.2.2⟩

/-- Pointwise ternary zip used to model elementwise tensor arithmetic on
three same-shape tensors flattened to lists. -/
def zipWith3 {α β γ δ : Type} (f : α → β → γ → δ) : List α → List β → List γ → List δ
  | a :: as, b :: bs, c :: cs => f a b c :: zipWith3 f as bs cs
  | _, _, _ => []

/-- The per-step inpainting compositing, lines 880-882:
latents = gligen_inpaint_latent_with_noise * gligen_inpaint_mask
        + latents * (1 - gligen_inpaint_mask),
elementwise over the (broadcast) tensors. -/
def inpaint_composite (gligen_inpaint_latent_with_noise gligen_inpaint_mask latents : List ℚ) :
    List ℚ :=
  zipWith3 (fun n m l => n * m + l * (1 - m))
    gligen_inpaint_latent_with_noise gligen_inpaint_mask latents

/-- C4 counterexample: with the all-ones mask [1] (empty box list), a noised
inpaint latent [1] and an evolving latent [0], the compositing step yields
[1], not the unchanged latent [0]: an all-ones mask forces every pixel to the
freshly noised inpaint latent. -/
theorem C4_composite_claim_counterexample :
    inpaint_composite [1] [1] [0] ≠ [0] := by
  simp [inpaint_composite, zipWith3]

/-- C4 amended: compositing with an all-ones mask (the mask produced by an
empty box list) replaces the evolving latent entirely by the freshly noised
inpaint latent; it is the all-zeros mask that leaves the evolving latent
numerically unchanged. -/
theorem C4_composite_amended (n : ℕ) (noised latents : List ℚ)
    (hn : noised.length = n) (hl : latents.length = n) :
    inpaint_composite noised (List.replicate n 1) latents = noised
    ∧ inpaint_composite noised (List.replicate n 0) latents = latents := by
  induction n generalizing noised latents with
  | zero =>
    rw [List.length_eq_zero] at hn hl
    subst hn; subst hl
    exact ⟨rfl, rfl⟩
  | succ k ih =>
    match noised, latents with
    | x :: xs, y :: ys =>
      simp only [List.length_cons, Nat.succ.injEq] at hn hl
      have h := ih xs ys hn hl
      constructor
      · simp only [List.replicate_succ, inpaint_composite, zipWith3] at h ⊢
        rw [h.1]
        ring_nf
      · simp only [List.replicate_succ, inpaint_composite, zipWith3] at h ⊢
        rw [h.2]
        ring_nf

/-- Witness for C4 amended on concrete length-2 tensors. -/
theorem C4_composite_amended_witness :
    inpaint_composite [3, 4] (List.replicate 2 1) [5, 6] = [3, 4]
    ∧ inpaint_composite [3, 4] (List.replicate 2 0) [5, 6] = [5, 6] :=
  C4_composite_amended 2 [3, 4] [5, 6] rfl rfl

/-- Dot product of two equally long rational vectors. -/
def dotProd (u v : List ℚ) : ℚ := (List.zipWith (· * ·) u v).sum

/-- x @ torch.transpose(P, 0, 1) for x a batch of row vectors and P a
matrix given as a list of rows: entry (i, j) is the dot product of row i
of x with row j of P, so each output row has P.length entries. -/
def matmul_transposed (x P : List (List ℚ)) : List (List ℚ) :=
  x.map (fun xi => P.map (fun pj => dotProd xi pj))

/-- project (lines 536-547): the projection matrix is downloaded, loaded
and transposed once (lines 542-543; the download itself is an external
effect out of scope here); if hidden_size differs from the transposed
matrix's first dimension, x is returned unchanged, otherwise
x @ torch.transpose(projection_matrix, 0, 1) is returned. -/
def project (hidden_size : ℕ) (projection_matrix : List (List ℚ))
    (x : List (List ℚ)) : List (List ℚ) :=
  if hidden_size ≠ projection_matrix.length then x
  else matmul_transposed x projection_matrix

/-- C6: the learned projection is applied iff its output dimension (the
first dimension of the transposed projection matrix, which is the length
of every row of the projected result) equals hidden_size; on a dimension
mismatch the vision embedding is returned unchanged (pass-through law). -/
theorem C6_project_pass_through (hidden_size : ℕ) (P x : List (List ℚ)) :
    (hidden_size ≠ P.length → project hidden_size P x = x)
    ∧ (hidden_size = P.length →
        project hidden_size P x = matmul_transposed x P
        ∧ ∀ row ∈ project hidden_size P x, row.length = hidden_size) := by
  constructor
  · intro h
    simp [project, h]
  · intro h
    have happ : project hidden_size P x = matmul_transposed x P := by
      simp [project, h]
    refine ⟨happ, ?_⟩
    intro row hrow
    rw [happ] at hrow
    rcases List.mem_map.mp hrow with ⟨xi, -, hxi⟩
    rw [← hxi, List.length_map, h]

/-- Witness for C6: a 2-vs-3 mismatch passes the embedding through, a
3-dimensional match applies the projection. -/
theorem C6_project_pass_through_witness :
    project 2 [[1, 0], [0, 1], [0, 0]] [[1, 2, 3]] = [[1, 2, 3]]
    ∧ project 3 [[1, 0, 0], [0, 1, 0], [0, 0, 1]] [[1, 2, 3]] =
        matmul_transposed [[1, 2, 3]] [[1, 0, 0], [0, 1, 0], [0, 0, 1]] := by
  constructor
  · exact (C6_project_pass_through 2 [[1, 0], [0, 1], [0, 0]] [[1, 2, 3]]).1 (by decide)
  · exact ((C6_project_pass_through 3 [[1, 0, 0], [0, 1, 0], [0, 0, 1]] [[1, 2, 3]]).2 rfl).1

/-- The loop's progress/callback trigger condition, line 919:
i == len(timesteps) - 1 or ((i + 1) > num_warmup_steps and
(i + 1) % scheduler.order == 0). -/
def callback_condition (i num_timesteps num_warmup_steps order : ℕ) : Bool :=
  (i == num_timesteps - 1) || (decide (i + 1 > num_warmup_steps) && ((i + 1) % order == 0))

/-- Whether the user callback actually runs at loop iteration i,
lines 919-922: the trigger condition must hold, and then the guard
callback is not None and i % callback_steps == 0 must hold too (the
callback-supplied case is modelled, so only the stride guard remains). -/
def callback_fires (i num_timesteps num_warmup_steps order callback_steps : ℕ) : Bool :=
  callback_condition i num_timesteps num_warmup_steps order && (i % callback_steps == 0)

/-- C7 counterexample: on a 2-step schedule with stride callback_steps = 2
(warmup 0, scheduler order 1), the final step has index 1, the trigger
condition holds there, yet the callback does not fire because
1 % 2 is not 0 — so a supplied callback does not fire on the final step
for every stride. -/
theorem C7_callback_claim_counterexample :
    1 = 2 - 1
    ∧ callback_condition 1 2 0 1 = true
    ∧ callback_fires 1 2 0 1 2 = false := by decide

/-- C7 amended: the trigger condition (hence the progress-bar update)
always holds on the final step regardless of stride, but a supplied
callback fires there iff (len(timesteps) - 1) % callback_steps == 0; in
particular it always fires on the final step when callback_steps = 1. -/
theorem C7_callback_final_step (num_timesteps num_warmup_steps order callback_steps : ℕ)
    (hn : 1 ≤ num_timesteps) (hs : 1 ≤ callback_steps) :
    callback_condition (num_timesteps - 1) num_timesteps num_warmup_steps order = true
    ∧ (callback_fires (num_timesteps - 1) num_timesteps num_warmup_steps order
          callback_steps = true
        ↔ (num_timesteps - 1) % callback_steps = 0)
    ∧ (callback_steps = 1 →
        callback_fires (num_timesteps - 1) num_timesteps num_warmup_steps order 1 = true) := by
  have hcond : callback_condition (num_timesteps - 1) num_timesteps num_warmup_steps order
      = true := by
    simp [callback_condition]
  refine ⟨hcond, ?_, ?_⟩
  · simp [callback_fires, hcond]
  · intro h
    simp [callback_fires, hcond, Nat.mod_one]

/-- Witness for C7 amended: 10 steps, stride 3, final index 9 fires. -/
theorem C7_callback_final_step_witness :
    callback_fires 9 10 0 1 3 = true :=
  (C7_callback_final_step 10 0 1 3 (by decide) (by decide)).2.1.mpr (by decide)

/-- The scheduler collaborator's operations consumed by the denoising
loop, on one latent cell: init_noise_sigma (line 506),
scale_model_input(sample, t) (line 886), step(noise, t, sample)
(line 916) and add_noise(sample, noise, t) (line 876). -/
structure SchedulerModel where
  init_noise_sigma : ℚ
  scale_model_input : ℚ → ℕ → ℚ
  step : ℚ → ℕ → ℚ → ℚ
  add_noise : ℚ → ℚ → ℕ → ℚ

/-- Per-call state threaded through the denoising loop: the enabled flags
of the UNet's GatedSelfAttentionDense modules (shared module state), the
evolving latent cell, and how many draws from the global (non-generator)
RNG stream have been consumed so far. -/
structure CallState where
  fuser_flags : List Bool
  latents : ℚ
  rng_ctr : ℕ

/-- enable_fuser (lines 509-512): sets the enabled flag of every
GatedSelfAttentionDense module of the UNet to the given value. -/
def enable_fuser (enabled : Bool) (modules : List Bool) : List Bool :=
  modules.map (fun _ => enabled)

/-- One iteration of the denoising loop (lines 870-922) on one latent
cell.  When inpainting is active (inpaint = some (gligen_inpaint_latent,
gligen_inpaint_mask)), the inpaint latent is re-noised with a fresh draw
of torch.randn_like (line 876) — which takes no generator argument, so the
draw comes from the global RNG stream — and composited into the latent
(lines 874-882).  The model input is the scheduler-scaled latent
(lines 885-886; the classifier-free batch duplication feeds the same cell
to both branches).  The network runs as pass A (grounded) and pass B
(ungrounded) (lines 893-905), modelled per branch by
unet input t grounded conditional; with guidance enabled the conditional
branch of pass A and the unconditional branch of pass B are combined
(lines 907-913, cf. guidance_combine), otherwise the grounded pass is
used directly; finally the scheduler advances the latent (line 916).  No
statement in the loop body writes the fuser flags.  The channel guard of
lines 871-872 is vacuous for a cell of the expected channel count. -/
def denoise_step (sched : SchedulerModel) (unet : ℚ → ℕ → Bool → Bool → ℚ)
    (guidance_scale : ℚ) (inpaint : Option (ℚ × ℚ)) (globalRng : ℕ → ℚ)
    (s : CallState) (t : ℕ) : CallState :=
  let step_input : ℚ × ℕ :=
    match inpaint with
    | some (gligen_inpaint_latent, gligen_inpaint_mask) =>
      let gligen_inpaint_latent_with_noise :=
        sched.add_noise gligen_inpaint_latent (globalRng s.rng_ctr) t
      (gligen_inpaint_latent_with_noise * gligen_inpaint_mask
        + s.latents * (1 - gligen_inpaint_mask), s.rng_ctr + 1)
    | none => (s.latents, s.rng_ctr)
  let latent_model_input := sched.scale_model_input step_input.1 t
  let noise_pred :=
    if guidance_scale > 1 then
      let noise_pred_text := unet latent_model_input t true true
      let noise_pred_uncond := unet latent_model_input t false false
      noise_pred_uncond + guidance_scale * (noise_pred_text - noise_pred_uncond)
    else unet latent_model_input t true true
  { fuser_flags := s.fuser_flags,
    latents := sched.step noise_pred t step_input.1,
    rng_ctr := step_input.2 }

/-- The call from latent preparation through the first `executed`
iterations of the denoising loop.  The initial latent, when none is
supplied, is drawn by randn_tensor from the caller-supplied generator
(lines 500-506) and scaled by init_noise_sigma; line 861 computes
int(gligen_scheduled_sampling_beta * len(timesteps)) and discards the
result; enable_fuser(True) (line 862) switches on every gate flag; then
the loop iterations run in order.  `executed` models early termination:
an exception thrown inside iteration k leaves the state reached after the
first k - 1 complete iterations; executed ≥ timesteps.length is the
completed call. -/
def run_call_upto (sched : SchedulerModel) (unet : ℚ → ℕ → Bool → Bool → ℚ)
    (guidance_scale gligen_scheduled_sampling_beta : ℚ) (timesteps : List ℕ)
    (inpaint : Option (ℚ × ℚ)) (generator globalRng : ℕ → ℚ)
    (latents : Option ℚ) (modules : List Bool) (executed : ℕ) : CallState :=
  let latents0 := (match latents with
    | none => generator 0
    | some l => l) * sched.init_noise_sigma
  let _ := pyInt (gligen_scheduled_sampling_beta * (timesteps.length : ℚ))
  (timesteps.take executed).foldl
    (denoise_step sched unet guidance_scale inpaint globalRng)
    ⟨enable_fuser true modules, latents0, 0⟩

/-- The completed call: every iteration of the denoising loop runs. -/
def run_call (sched : SchedulerModel) (unet : ℚ → ℕ → Bool → Bool → ℚ)
    (guidance_scale gligen_scheduled_sampling_beta : ℚ) (timesteps : List ℕ)
    (inpaint : Option (ℚ × ℚ)) (generator globalRng : ℕ → ℚ)
    (latents : Option ℚ) (modules : List Bool) : CallState :=
  run_call_upto sched unet guidance_scale gligen_scheduled_sampling_beta timesteps
    inpaint generator globalRng latents modules timesteps.length

/-- C5 counterexample: with inpainting active, two calls that agree on the
caller-supplied generator, all inputs, and the schedule, but run under
different global RNG states, produce different output latents — the
per-step inpaint re-noising (torch.randn_like, line 876) draws from the
global RNG, not from the caller generator. -/
theorem C5_determinism_claim_counterexample :
    (run_call ⟨1, fun l _ => l, fun _ _ l => l, fun s n _ => s + n⟩
      (fun _ _ _ _ => 0) 1 0 [0] (some (0, 1)) (fun _ => 0) (fun _ => 0)
      none []).latents
    ≠ (run_call ⟨1, fun l _ => l, fun _ _ l => l, fun s n _ => s + n⟩
      (fun _ _ _ _ => 0) 1 0 [0] (some (0, 1)) (fun _ => 0) (fun _ => 1)
      none []).latents := by
  norm_num [run_call, run_call_upto, denoise_step, enable_fuser]

/-- C5 amended: the initial latent draw does come from the caller-supplied
generator, and when inpainting is disabled the output latents are fully
determined by the generator and the other inputs (deterministic replay
irrespective of the global RNG state); but the per-step inpaint
re-noising draws from the global RNG, so with inpainting active replay is
deterministic only if the global RNG state is also replayed. -/
theorem C5_determinism_amended (sched : SchedulerModel)
    (unet : ℚ → ℕ → Bool → Bool → ℚ) (gs beta : ℚ) (timesteps : List ℕ)
    (inpaint : Option (ℚ × ℚ)) (generator g1 g2 : ℕ → ℚ)
    (latents : Option ℚ) (modules : List Bool) :
    run_call sched unet gs beta timesteps none generator g1 none modules =
      run_call sched unet gs beta timesteps none generator g2 none modules
    ∧ (run_call_upto sched unet gs beta timesteps inpaint generator g1 none
        modules 0).latents = generator 0 * sched.init_noise_sigma
    ∧ run_call sched unet gs beta timesteps inpaint generator g1 latents modules =
        run_call sched unet gs beta timesteps inpaint generator g1 latents modules := by
  refine ⟨rfl, ?_, rfl⟩
  simp [run_call_upto]

/-- C9: the gligen_scheduled_sampling_beta argument is accepted and a
step-count threshold int(beta * len(timesteps)) is computed from it
(line 861), but the value is discarded and never consulted by the
denoising loop, so two calls differing only in beta produce identical
output: the whole call state, latents included, coincides. -/
theorem C9_beta_has_no_effect (sched : SchedulerModel)
    (unet : ℚ → ℕ → Bool → Bool → ℚ) (gs beta1 beta2 : ℚ) (timesteps : List ℕ)
    (inpaint : Option (ℚ × ℚ)) (generator globalRng : ℕ → ℚ)
    (latents : Option ℚ) (modules : List Bool) :
    run_call sched unet gs beta1 timesteps inpaint generator globalRng latents modules =
      run_call sched unet gs beta2 timesteps inpaint generator globalRng latents modules := rfl

theorem foldl_denoise_fuser_flags (sched : SchedulerModel)
    (unet : ℚ → ℕ → Bool → Bool → ℚ) (gs : ℚ) (inpaint : Option (ℚ × ℚ))
    (globalRng : ℕ → ℚ) (ts : List ℕ) (s : CallState) :
    (ts.foldl (denoise_step sched unet gs inpaint globalRng) s).fuser_flags =
      s.fuser_flags := by
  induction ts generalizing s with
  | nil => rfl
  | cons t ts ih => exact ih _

/-- C10: however many loop iterations actually execute (the call may
complete or abort inside the loop), the enabled flag of every
GatedSelfAttentionDense module is True afterwards, whatever it was before
the call: enable_fuser(True) runs before the loop (line 862) and no later
statement of the call resets the flags, so the enabled state persists as
shared module state after the call. -/
theorem C10_fuser_flags_persist (sched : SchedulerModel)
    (unet : ℚ → ℕ → Bool → Bool → ℚ) (gs beta : ℚ) (timesteps : List ℕ)
    (inpaint : Option (ℚ × ℚ)) (generator globalRng : ℕ → ℚ)
    (latents : Option ℚ) (modules : List Bool) (executed : ℕ) :
    (run_call_upto sched unet gs beta timesteps inpaint generator globalRng
        latents modules executed).fuser_flags = modules.map (fun _ => true)
    ∧ ∀ f ∈ (run_call_upto sched unet gs beta timesteps inpaint generator globalRng
        latents modules executed).fuser_flags, f = true := by
  have h : (run_call_upto sched unet gs beta timesteps inpaint generator globalRng
      latents modules executed).fuser_flags = modules.map (fun _ => true) := by
    rw [run_call_upto.eq_def, foldl_denoise_fuser_flags]
    rfl
  refine ⟨h, ?_⟩
  rw [h]
  intro f hf
  rcases List.mem_map.mp hf with ⟨-, -, heq⟩
  exact heq.symm

end Gligen
